import Mathlib

/-!
Shallow embedding of `src/components/payroll/PayrollEditModal.tsx`: a modal
dialog that creates or edits one payroll record.  JavaScript numbers are
modelled as rationals, strings as Lean strings, and the component's React
state as an explicit `State` record transformed by input events.  The ambient
browser environment (clock, time zone) is an explicit `Env` parameter; the
default locale is modelled as rendering English month names.
-/

namespace Payroll

/-- The decimal digit character for `d` (meaningful for `d ≤ 9`). -/
def digitChar (d : Nat) : Char := Char.ofNat (48 + d)

/-- Numeric value of a digit character. -/
def charDigit (c : Char) : Nat := c.toNat - 48

/-- Value of a big-endian digit list, as read by `parseInt`/`parseFloat`. -/
def digitsToNat (cs : List Char) : Nat :=
  cs.foldl (fun a c => a * 10 + charDigit c) 0

/-- Fuel-driven accumulator loop of decimal rendering (`String(n)`). -/
def natToDigitsAux : Nat → Nat → List Char → List Char
  | 0, _, acc => acc
  | fuel + 1, n, acc =>
    if n = 0 then acc else natToDigitsAux fuel (n / 10) (digitChar (n % 10) :: acc)

/-- Decimal digits of `n` (empty for `0`). -/
def natDigits (n : Nat) : List Char := natToDigitsAux n n []

/-- JavaScript `String(n)` for a natural number. -/
def natToString (n : Nat) : String := if n = 0 then "0" else ⟨natDigits n⟩

/-- JavaScript `String(i)` for an integer. -/
def intToString (i : Int) : String :=
  if i < 0 then "-" ++ natToString i.natAbs else natToString i.toNat

/-- Longest digit prefix, as consumed by `parseInt(s, 10)`; `none` models `NaN`. -/
def parseDigits (cs : List Char) : Option Nat :=
  let ds := cs.takeWhile Char.isDigit
  if ds.isEmpty then none else some (digitsToNat ds)

/-- JavaScript `parseInt(s, 10)`; `none` models `NaN`. -/
def jsParseInt (s : String) : Option Int :=
  match s.data.dropWhile (fun c => c = ' ') with
  | [] => none
  | c :: rest =>
    if c = '-' then (parseDigits rest).map (fun n => -(Int.ofNat n))
    else if c = '+' then (parseDigits rest).map Int.ofNat
    else (parseDigits (c :: rest)).map Int.ofNat

/-- Fractional value of the digit list after a decimal point. -/
def fracValue (ds : List Char) : ℚ := (digitsToNat ds : ℚ) / (10 ^ ds.length)

/-- Unsigned decimal-literal prefix, as consumed by `parseFloat`. -/
def parseUnsignedFloat (cs : List Char) : Option ℚ :=
  let ipart := cs.takeWhile Char.isDigit
  match cs.dropWhile Char.isDigit with
  | '.' :: rest =>
    let fpart := rest.takeWhile Char.isDigit
    if ipart.isEmpty && fpart.isEmpty then none
    else some ((digitsToNat ipart : ℚ) + fracValue fpart)
  | _ => if ipart.isEmpty then none else some ((digitsToNat ipart : ℚ))

/-- JavaScript `parseFloat(s)` on plain decimal literals; `none` models `NaN`. -/
def jsParseFloat (s : String) : Option ℚ :=
  match s.data.dropWhile (fun c => c = ' ') with
  | [] => none
  | c :: rest =>
    if c = '-' then (parseUnsignedFloat rest).map (fun q => -q)
    else if c = '+' then parseUnsignedFloat rest
    else parseUnsignedFloat (c :: rest)

/-- `val === '' ? 0 : parseFloat(val) || 0` from the monetary `onChange` handlers. -/
def parsedMoney (val : String) : ℚ :=
  if val = "" then 0 else (jsParseFloat val).getD 0

/-- Accumulator loop of `String.prototype.split` with a one-character separator. -/
def splitAux (sep : Char) : List Char → List Char → List (List Char)
  | [], acc => [acc.reverse]
  | c :: rest, acc =>
    if c = sep then acc.reverse :: splitAux sep rest [] else splitAux sep rest (c :: acc)

/-- JavaScript `s.split(sep)` for a one-character separator. -/
def jsSplit (s : String) (sep : Char) : List String :=
  (splitAux sep s.data []).map fun cs => ⟨cs⟩

/-- English month names, as produced by `toLocaleString` with `month: 'long'`. -/
def monthNames : List String :=
  ["January", "February", "March", "April", "May", "June",
   "July", "August", "September", "October", "November", "December"]

/-- Name of month `m` (1-based). -/
def monthName (m : Nat) : String := monthNames.getD (m - 1) ""

/-- `String.prototype.padStart(2, '0')`. -/
def padStart2 (s : String) : String := if s.length < 2 then "0" ++ s else s

/-- Two-digit rendering of a month number. -/
def pad2 (n : Nat) : String := padStart2 (natToString n)

/-- Four-digit year as printed inside `toISOString`. -/
def pad4 (n : Nat) : String :=
  let s := natToString n
  if 4 ≤ s.length then s else (⟨List.replicate (4 - s.length) '0'⟩ : String) ++ s

/-- Ambient browser environment: clock and time zone.  `tzAheadMinutes` is how
far local time runs ahead of UTC (the negation of `getTimezoneOffset()`). -/
structure Env where
  nowMs : Nat
  nowLocalYear : Nat
  nowLocalMonth : Nat
  nowUtcYear : Nat
  nowUtcMonth : Nat
  tzAheadMinutes : Int

/-- `new Date().toLocaleString('default', { month: 'long', year: 'numeric' })`. -/
def currentLabel (env : Env) : String :=
  monthName env.nowLocalMonth ++ " " ++ natToString env.nowLocalYear

/-- `new Date().toISOString().slice(0, 7)`. -/
def isoYmNow (env : Env) : String := pad4 env.nowUtcYear ++ "-" ++ pad2 env.nowUtcMonth

/-- The two-digit-year adjustment performed by `Date.UTC`. -/
def dateUTCYearAdjust (y : Int) : Int := if 0 ≤ y ∧ y ≤ 99 then y + 1900 else y

/-- `labelFromYm` from the component: renders a `YYYY-MM` picker value as a
"Month Year" label anchored at UTC midnight of the 1st, falling back to the
current date's label when a component is missing, unparseable or zero. -/
def labelFromYm (env : Env) (ym : String) : String :=
  let parts := (jsSplit ym '-').map jsParseInt
  match parts.getD 0 none, parts.getD 1 none with
  | some y, some m =>
    if y = 0 ∨ m = 0 then currentLabel env
    else
      monthName ((Int.emod (m - 1) 12).toNat + 1) ++ " " ++
        intToString (dateUTCYearAdjust y + Int.ediv (m - 1) 12)
  | _, _ => currentLabel env

/-- `new Date(label)` on a "Month Year" string: the local-time instant of
midnight on the 1st; `none` models an invalid date.  Modelled for the English
month names this component itself produces. -/
def jsParseMonthYear (label : String) : Option (Nat × Nat) :=
  match jsSplit label ' ' with
  | [monStr, yrStr] =>
    match monthNames.findIdx? (fun nm => nm == monStr), parseDigits yrStr.data with
    | some i, some y => some (y, i + 1)
    | _, _ => none
  | _ => none

/-- UTC year/month of local midnight on the 1st of `(y, m)`: a zone ahead of
UTC pushes that instant into the preceding month. -/
def utcYmOfLocalFirst (env : Env) (y m : Nat) : Nat × Nat :=
  if 0 < env.tzAheadMinutes then (if m ≤ 1 then (y - 1, 12) else (y, m - 1)) else (y, m)

/-- `ymFromLabel` from the component: parses a "Month Year" label back into a
`YYYY-MM` value via `getUTCFullYear`/`getUTCMonth`; empty string on failure. -/
def ymFromLabel (env : Env) (label : String) : String :=
  match jsParseMonthYear label with
  | none => ""
  | some (y, m) =>
    let um := utcYmOfLocalFirst env y m
    natToString um.1 ++ "-" ++ pad2 um.2

/-- `PayrollRecord['status']` from `types.ts`. -/
inductive PayStatus
  | pending
  | paid
deriving DecidableEq

/-- Read-only employee reference data supplied by the caller. -/
structure Employee where
  id : Int
  name : String
  department : String
deriving DecidableEq

/-- The `PayrollRecord` shape the component edits. -/
structure PayrollRecord where
  id : String
  employeeId : Int
  month : String
  basicSalary : ℚ
  allowances : ℚ
  deductions : ℚ
  netSalary : ℚ
  status : PayStatus
deriving DecidableEq

/-- `emptyRecord` from the component (both call sites pass no arguments). -/
def emptyRecord (env : Env) (employeeId : Option Int) (month : Option String) : PayrollRecord :=
  { id := "payroll-new-" ++ natToString env.nowMs
    employeeId := employeeId.getD 0
    month := month.getD (currentLabel env)
    basicSalary := 0
    allowances := 0
    deductions := 0
    netSalary := 0
    status := .pending }

/-- Digits after the decimal point of `r / d`, up to `fuel` places. -/
def fracDigits : Nat → Nat → Nat → List Char
  | 0, _, _ => []
  | _, 0, _ => []
  | fuel + 1, r, d => digitChar (r * 10 / d) :: fracDigits fuel (r * 10 % d) d

/-- JavaScript `String(x)` for a finite numeric amount. -/
def qToString (q : ℚ) : String :=
  (if q.num < 0 then "-" else "") ++ natToString (q.num.natAbs / q.den) ++
    (if q.num.natAbs % q.den = 0 then ""
     else "." ++ (⟨fracDigits 20 (q.num.natAbs % q.den) q.den⟩ : String))

/-- The component's React state: the draft record and the four tracked input
strings. -/
structure State where
  record : PayrollRecord
  basicInput : String
  allowancesInput : String
  deductionsInput : String
  monthInput : String
deriving DecidableEq

/-- The `useState` initial values, before the initialization effect runs. -/
def mountState (env : Env) (initialRecord : Option PayrollRecord) : State :=
  { record := initialRecord.getD (emptyRecord env none none)
    basicInput := ""
    allowancesInput := ""
    deductionsInput := ""
    monthInput := "" }

/-- The `useEffect` body: re-derives every piece of state from the supplied
record (or a fresh default) whenever the dialog opens or the record changes. -/
def applyInitEffect (env : Env) (initialRecord : Option PayrollRecord)
    (prev : State) : State :=
  let init := initialRecord.getD (emptyRecord env none none)
  let initYm := ymFromLabel env init.month
  { prev with
    record := init
    basicInput := if init.basicSalary = 0 then "" else qToString init.basicSalary
    allowancesInput := if init.allowances = 0 then "" else qToString init.allowances
    deductionsInput := if init.deductions = 0 then "" else qToString init.deductions
    monthInput := if initYm = "" then isoYmNow env else initYm }

/-- State right after the dialog opens: mount followed by the init effect. -/
def openDialog (env : Env) (initialRecord : Option PayrollRecord) : State :=
  applyInitEffect env initialRecord (mountState env initialRecord)

/-- User input events the open dialog can receive. -/
inductive Event
  | setEmployee (val : String)
  | setMonth (ym : String)
  | setBasic (val : String)
  | setAllowances (val : String)
  | setDeductions (val : String)
  | setStatus (st : PayStatus)

/-- `recomputeNet` from the component: `Math.max(0, basic + allowances - deductions)`. -/
def recomputeNet (basic allowances deductions : ℚ) : ℚ :=
  max 0 (basic + allowances - deductions)

/-- One `onChange` handler step. -/
def step (env : Env) (s : State) : Event → State
  | .setEmployee val =>
    { s with record := { s.record with employeeId := (jsParseInt val).getD 0 } }
  | .setMonth ym =>
    { s with monthInput := ym, record := { s.record with month := labelFromYm env ym } }
  | .setBasic val =>
    { s with basicInput := val
             record := { s.record with
               basicSalary := parsedMoney val
               netSalary := recomputeNet (parsedMoney val) s.record.allowances
                 s.record.deductions } }
  | .setAllowances val =>
    { s with allowancesInput := val
             record := { s.record with
               allowances := parsedMoney val
               netSalary := recomputeNet s.record.basicSalary (parsedMoney val)
                 s.record.deductions } }
  | .setDeductions val =>
    { s with deductionsInput := val
             record := { s.record with
               deductions := parsedMoney val
               netSalary := recomputeNet s.record.basicSalary s.record.allowances
                 (parsedMoney val) } }
  | .setStatus st =>
    { s with record := { s.record with status := st } }

/-- Fold a sequence of input events over the state. -/
def run (env : Env) (s : State) (events : List Event) : State :=
  events.foldl (step env) s

/-- First-occurrence character replacement. -/
def replaceFirstChar (oldc newc : Char) : List Char → List Char
  | [] => []
  | c :: rest => if c = oldc then newc :: rest else c :: replaceFirstChar oldc newc rest

/-- JavaScript `s.replace(' ', '-')`: replaces only the first occurrence. -/
def jsReplaceFirst (s : String) (oldc newc : Char) : String :=
  ⟨replaceFirstChar oldc newc s.data⟩

/-- The identifier resolved in the Save `onClick`. -/
def savedId (initialRecord : Option PayrollRecord) (r : PayrollRecord) : String :=
  match initialRecord with
  | some r0 => r0.id
  | none => "payroll-" ++ intToString r.employeeId ++ "-" ++ jsReplaceFirst r.month ' ' '-'

/-- The Save button: `none` when the button is disabled
(`!record.employeeId || !monthInput`) or the `onClick` guard rejects
(`!record.employeeId || !employeeMap.get(record.employeeId)`); otherwise the
record handed to `onSave`. -/
def saveAttempt (employees : List Employee) (initialRecord : Option PayrollRecord)
    (s : State) : Option PayrollRecord :=
  if s.record.employeeId = 0 ∨ s.monthInput = "" then none
  else if (employees.find? (fun e => e.id == s.record.employeeId)).isSome then
    some { s.record with id := savedId initialRecord s.record }
  else none

/-- The derived-field invariant: net salary agrees with
`max(0, basicSalary + allowances - deductions)`. -/
def netInvariant (r : PayrollRecord) : Prop :=
  r.netSalary = max 0 (r.basicSalary + r.allowances - r.deductions)

instance (r : PayrollRecord) : Decidable (netInvariant r) := by
  unfold netInvariant; infer_instance

/-- A concrete browser environment: March 2025, UTC. -/
def envW : Env := ⟨12345, 2025, 3, 2025, 3, 0⟩

/-- Same clock reading except that UTC is still in December 2024. -/
def envUtcDec : Env := ⟨12345, 2025, 3, 2024, 12, 0⟩

/-- An environment whose zone runs 5:30 ahead of UTC. -/
def envIndia : Env := ⟨12345, 2025, 1, 2025, 1, 330⟩

/-- A concrete employee. -/
def empW : Employee := ⟨1, "Asha", "Engineering"⟩

/-- An existing record whose net salary satisfies the derived-field equation. -/
def okRec : PayrollRecord := ⟨"p1", 1, "September 2025", 0, 0, 0, 0, PayStatus.pending⟩

/-- `okRec` after toggling the status to Paid. -/
def okRecPaid : PayrollRecord := ⟨"p1", 1, "September 2025", 0, 0, 0, 0, PayStatus.paid⟩

/-- An existing record whose stored net salary violates the derived-field
equation (the caller is free to hand the component such a record). -/
def staleRec : PayrollRecord := ⟨"p1", 1, "September 2025", 0, 0, 0, 999, PayStatus.pending⟩

/-- An existing record with an unparseable month label. -/
def recBadMonth : PayrollRecord := ⟨"p2", 1, "not-a-date", 0, 0, 0, 0, PayStatus.pending⟩

/-- An existing record with an empty month label. -/
def recEmptyMonth : PayrollRecord := ⟨"p3", 1, "", 0, 0, 0, 0, PayStatus.pending⟩

/-- The record saved from a fresh draft in `envW` after choosing employee 1. -/
def savedCreate : PayrollRecord :=
  ⟨"payroll-1-March-2025", 1, "March 2025", 0, 0, 0, 0, PayStatus.pending⟩

/-- Pre-effect state used in the initialization counterexample. -/
def mountBad : State := mountState envW (some recBadMonth)

theorem charDigit_digitChar (d : Nat) (h : d < 10) : charDigit (digitChar d) = d := by
  interval_cases d <;> decide

theorem isDigit_digitChar (d : Nat) (h : d < 10) : (digitChar d).isDigit = true := by
  interval_cases d <;> decide

theorem natToDigitsAux_eq (n : Nat) :
    ∀ f acc, n ≤ f → natToDigitsAux f n acc = natDigits n ++ acc := by
  induction n using Nat.strong_induction_on with
  | _ n IH =>
    intro f acc hf
    by_cases hn : n = 0
    · subst hn
      cases f with
      | zero => simp [natToDigitsAux, natDigits]
      | succ f => simp [natToDigitsAux, natDigits]
    · have hfpos : 0 < f := Nat.lt_of_lt_of_le (Nat.pos_of_ne_zero hn) hf
      obtain ⟨f', rfl⟩ : ∃ f', f = f' + 1 := ⟨f - 1, by omega⟩
      have hdiv : n / 10 < n := Nat.div_lt_self (Nat.pos_of_ne_zero hn) (by norm_num)
      have hstep : natToDigitsAux (f' + 1) n acc =
          natToDigitsAux f' (n / 10) (digitChar (n % 10) :: acc) := by
        simp [natToDigitsAux, hn]
      rw [hstep, IH (n / 10) hdiv f' _ (by omega)]
      have hself : natDigits n = natDigits (n / 10) ++ [digitChar (n % 10)] := by
        obtain ⟨m, rfl⟩ : ∃ m, n = m + 1 := ⟨n - 1, by omega⟩
        show natToDigitsAux (m + 1) (m + 1) [] = _
        rw [show natToDigitsAux (m + 1) (m + 1) [] =
            natToDigitsAux m ((m + 1) / 10) [digitChar ((m + 1) % 10)] by
          simp [natToDigitsAux]]
        rw [IH ((m + 1) / 10) hdiv m _ (Nat.lt_succ_iff.mp hdiv)]
      rw [hself, List.append_assoc]
      rfl

theorem natDigits_cons (n : Nat) (h : n ≠ 0) :
    natDigits n = natDigits (n / 10) ++ [digitChar (n % 10)] := by
  obtain ⟨m, rfl⟩ : ∃ m, n = m + 1 := ⟨n - 1, by omega⟩
  show natToDigitsAux (m + 1) (m + 1) [] = _
  rw [show natToDigitsAux (m + 1) (m + 1) [] =
      natToDigitsAux m ((m + 1) / 10) [digitChar ((m + 1) % 10)] by
    simp [natToDigitsAux]]
  rw [natToDigitsAux_eq ((m + 1) / 10) m _
    (Nat.lt_succ_iff.mp (Nat.div_lt_self (Nat.succ_pos m) (by norm_num)))]

theorem natDigits_all_digits (n : Nat) : ∀ c ∈ natDigits n, c.isDigit = true := by
  induction n using Nat.strong_induction_on with
  | _ n IH =>
    intro c hc
    by_cases hn : n = 0
    · subst hn; simp [natDigits, natToDigitsAux] at hc
    · rw [natDigits_cons n hn] at hc
      rcases List.mem_append.mp hc with h | h
      · exact IH (n / 10) (Nat.div_lt_self (Nat.pos_of_ne_zero hn) (by norm_num)) c h
      · rcases List.mem_singleton.mp h with rfl
        exact isDigit_digitChar (n % 10) (Nat.mod_lt n (by norm_num))

theorem digitsToNat_append_singleton (xs : List Char) (c : Char) :
    digitsToNat (xs ++ [c]) = digitsToNat xs * 10 + charDigit c := by
  simp [digitsToNat, List.foldl_append]

theorem digitsToNat_natDigits (n : Nat) : digitsToNat (natDigits n) = n := by
  induction n using Nat.strong_induction_on with
  | _ n IH =>
    by_cases hn : n = 0
    · subst hn; rfl
    · rw [natDigits_cons n hn, digitsToNat_append_singleton,
        IH (n / 10) (Nat.div_lt_self (Nat.pos_of_ne_zero hn) (by norm_num)),
        charDigit_digitChar (n % 10) (Nat.mod_lt n (by norm_num))]
      omega

theorem natDigits_ne_nil (n : Nat) (h : n ≠ 0) : natDigits n ≠ [] := by
  rw [natDigits_cons n h]; simp

theorem natToString_eq_mk (n : Nat) (h : n ≠ 0) : natToString n = String.mk (natDigits n) := by
  simp [natToString, h]

theorem isDigit_ne_of (c x : Char) (h : c.isDigit = true) (hx : x.isDigit = false) :
    c ≠ x := by
  intro he; rw [he, hx] at h; cases h

theorem takeWhile_of_all {p : Char → Bool} :
    ∀ cs : List Char, (∀ c ∈ cs, p c = true) → cs.takeWhile p = cs := by
  intro cs
  induction cs with
  | nil => intro _; rfl
  | cons c rest IH =>
    intro h
    rw [List.takeWhile_cons, if_pos (h c (by simp)), IH (fun x hx => h x (by simp [hx]))]

theorem dropWhile_of_none {p : Char → Bool} :
    ∀ cs : List Char, (∀ c ∈ cs, p c = false) → cs.dropWhile p = cs := by
  intro cs
  induction cs with
  | nil => intro _; rfl
  | cons c rest _ =>
    intro h
    rw [List.dropWhile_cons, if_neg (by simp [h c (by simp)])]

theorem parseDigits_of_digits (cs : List Char) (h1 : cs ≠ [])
    (h2 : ∀ c ∈ cs, c.isDigit = true) : parseDigits cs = some (digitsToNat cs) := by
  unfold parseDigits
  rw [takeWhile_of_all cs h2]
  simp [h1]

theorem jsParseInt_mk_digits (cs : List Char) (h1 : cs ≠ [])
    (h2 : ∀ c ∈ cs, c.isDigit = true) :
    jsParseInt (String.mk cs) = some ((digitsToNat cs : Int)) := by
  have hdrop : cs.dropWhile (fun c => c = ' ') = cs := by
    apply dropWhile_of_none
    intro c hc
    simp [isDigit_ne_of c ' ' (h2 c hc) (by decide)]
  obtain ⟨c, rest, rfl⟩ := List.exists_cons_of_ne_nil h1
  unfold jsParseInt
  rw [show (String.mk (c :: rest)).data = c :: rest from rfl, hdrop]
  have hcd := h2 c (by simp)
  show (if c = '-' then (parseDigits rest).map (fun n => -(Int.ofNat n))
    else if c = '+' then (parseDigits rest).map Int.ofNat
    else (parseDigits (c :: rest)).map Int.ofNat) = _
  rw [if_neg (isDigit_ne_of c '-' hcd (by decide)),
    if_neg (isDigit_ne_of c '+' hcd (by decide)),
    parseDigits_of_digits (c :: rest) (by simp) h2]
  rfl

theorem jsParseInt_natToString (n : Nat) (h : n ≠ 0) :
    jsParseInt (natToString n) = some ((n : Int)) := by
  rw [natToString_eq_mk n h,
    jsParseInt_mk_digits (natDigits n) (natDigits_ne_nil n h) (natDigits_all_digits n),
    digitsToNat_natDigits]

theorem splitAux_of_no_sep (sep : Char) :
    ∀ cs acc, (∀ c ∈ cs, c ≠ sep) → splitAux sep cs acc = [acc.reverse ++ cs] := by
  intro cs
  induction cs with
  | nil => intro acc _; simp [splitAux]
  | cons c rest IH =>
    intro acc h
    rw [show splitAux sep (c :: rest) acc =
        if c = sep then acc.reverse :: splitAux sep rest []
        else splitAux sep rest (c :: acc) from rfl,
      if_neg (h c (by simp)), IH (c :: acc) (fun x hx => h x (by simp [hx]))]
    simp

theorem splitAux_append_sep (sep : Char) :
    ∀ a b acc, (∀ c ∈ a, c ≠ sep) →
      splitAux sep (a ++ sep :: b) acc = (acc.reverse ++ a) :: splitAux sep b [] := by
  intro a
  induction a with
  | nil =>
    intro b acc _
    simp [splitAux]
  | cons c rest IH =>
    intro b acc h
    rw [List.cons_append,
      show splitAux sep (c :: (rest ++ sep :: b)) acc =
        if c = sep then acc.reverse :: splitAux sep (rest ++ sep :: b) []
        else splitAux sep (rest ++ sep :: b) (c :: acc) from rfl,
      if_neg (h c (by simp)), IH b (c :: acc) (fun x hx => h x (by simp [hx]))]
    simp

theorem jsSplit_pair (a b : List Char) (sep : Char)
    (ha : ∀ c ∈ a, c ≠ sep) (hb : ∀ c ∈ b, c ≠ sep) :
    splitAux sep (a ++ sep :: b) [] = [a, b] := by
  rw [splitAux_append_sep sep a b [] ha, splitAux_of_no_sep sep b [] hb]
  simp

theorem pad2_digits (m : Nat) (hm2 : m ≤ 12) :
    ∀ c ∈ (pad2 m).data, c.isDigit = true := by
  interval_cases m <;> decide

theorem jsParseInt_pad2 (m : Nat) (hm1 : 1 ≤ m) (hm2 : m ≤ 12) :
    jsParseInt (pad2 m) = some ((m : Int)) := by
  interval_cases m <;> decide

theorem monthName_no_space (m : Nat) (hm1 : 1 ≤ m) (hm2 : m ≤ 12) :
    ∀ c ∈ (monthName m).data, c ≠ ' ' := by
  interval_cases m <;> decide

theorem findIdx_monthName (m : Nat) (hm1 : 1 ≤ m) (hm2 : m ≤ 12) :
    monthNames.findIdx? (fun nm => nm == monthName m) = some (m - 1) := by
  interval_cases m <;> decide

theorem intToString_natCast (n : Nat) : intToString ((n : Int)) = natToString n := by
  unfold intToString
  rw [if_neg (by omega), Int.toNat_natCast]

theorem labelFromYm_ymString (env : Env) (y m : Nat) (hy : 100 ≤ y)
    (hm1 : 1 ≤ m) (hm2 : m ≤ 12) :
    labelFromYm env (natToString y ++ "-" ++ pad2 m) =
      monthName m ++ " " ++ natToString y := by
  have hy0 : y ≠ 0 := by omega
  have hdata : (natToString y ++ "-" ++ pad2 m).data =
      natDigits y ++ '-' :: (pad2 m).data := by
    rw [String.data_append, String.data_append, natToString_eq_mk y hy0]
    rw [show (String.mk (natDigits y)).data ++ "-".data = natDigits y ++ ['-'] from rfl]
    rw [List.append_assoc]
    rfl
  have hsplit : jsSplit (natToString y ++ "-" ++ pad2 m) '-' =
      [String.mk (natDigits y), pad2 m] := by
    unfold jsSplit
    rw [hdata, jsSplit_pair (natDigits y) ((pad2 m).data) '-'
      (fun c hc => isDigit_ne_of c '-' (natDigits_all_digits y c hc) (by decide))
      (fun c hc => isDigit_ne_of c '-' (pad2_digits m hm2 c hc) (by decide))]
    rfl
  have hmap : ([String.mk (natDigits y), pad2 m].map jsParseInt) =
      [some ((y : Int)), some ((m : Int))] := by
    rw [List.map_cons, List.map_cons, List.map_nil,
      jsParseInt_mk_digits (natDigits y) (natDigits_ne_nil y hy0) (natDigits_all_digits y),
      digitsToNat_natDigits, jsParseInt_pad2 m hm1 hm2]
  unfold labelFromYm
  rw [hsplit, hmap]
  show (if (y : Int) = 0 ∨ (m : Int) = 0 then currentLabel env
    else monthName ((Int.emod ((m : Int) - 1) 12).toNat + 1) ++ " " ++
      intToString (dateUTCYearAdjust (y : Int) + Int.ediv ((m : Int) - 1) 12)) = _
  rw [if_neg (by omega)]
  rw [show Int.emod ((m : Int) - 1) 12 = (m : Int) - 1 from
      Int.emod_eq_of_lt (by omega) (by omega),
    show Int.ediv ((m : Int) - 1) 12 = 0 from
      Int.ediv_eq_zero_of_lt (by omega) (by omega)]
  rw [show ((m : Int) - 1).toNat + 1 = m by omega]
  unfold dateUTCYearAdjust
  rw [if_neg (by omega), add_zero, intToString_natCast]

theorem ymFromLabel_monthLabel (env : Env) (y m : Nat) (hy : y ≠ 0)
    (hm1 : 1 ≤ m) (hm2 : m ≤ 12) (htz : env.tzAheadMinutes ≤ 0) :
    ymFromLabel env (monthName m ++ " " ++ natToString y) =
      natToString y ++ "-" ++ pad2 m := by
  have hdata : (monthName m ++ " " ++ natToString y).data =
      (monthName m).data ++ ' ' :: natDigits y := by
    rw [String.data_append, String.data_append, natToString_eq_mk y hy]
    rw [show (monthName m).data ++ " ".data = (monthName m).data ++ [' '] from rfl]
    rw [List.append_assoc]
    rfl
  have hsplit : jsSplit (monthName m ++ " " ++ natToString y) ' ' =
      [monthName m, String.mk (natDigits y)] := by
    unfold jsSplit
    rw [hdata, jsSplit_pair ((monthName m).data) (natDigits y) ' '
      (monthName_no_space m hm1 hm2)
      (fun c hc => isDigit_ne_of c ' ' (natDigits_all_digits y c hc) (by decide))]
    rfl
  have hparse : jsParseMonthYear (monthName m ++ " " ++ natToString y) = some (y, m) := by
    unfold jsParseMonthYear
    rw [hsplit]
    show (match monthNames.findIdx? (fun nm => nm == monthName m),
        parseDigits (String.mk (natDigits y)).data with
      | some i, some y => some (y, i + 1)
      | _, _ => none) = _
    rw [findIdx_monthName m hm1 hm2,
      show parseDigits (String.mk (natDigits y)).data = parseDigits (natDigits y) from rfl,
      parseDigits_of_digits (natDigits y) (natDigits_ne_nil y hy) (natDigits_all_digits y),
      digitsToNat_natDigits]
    show some (y, m - 1 + 1) = _
    rw [show m - 1 + 1 = m by omega]
  unfold ymFromLabel
  rw [hparse]
  show natToString (utcYmOfLocalFirst env y m).1 ++ "-" ++
    pad2 (utcYmOfLocalFirst env y m).2 = _
  unfold utcYmOfLocalFirst
  rw [if_neg (by omega)]

theorem append_space_ne_empty (a b : String) : a ++ " " ++ b ≠ "" := by
  intro h
  have hl := congrArg String.length h
  rw [String.length_append, String.length_append,
    show (" " : String).length = 1 from rfl, show ("" : String).length = 0 from rfl] at hl
  omega

theorem currentLabel_ne_empty (env : Env) : currentLabel env ≠ "" :=
  append_space_ne_empty _ _

theorem labelFromYm_ne_empty (env : Env) (ym : String) : labelFromYm env ym ≠ "" := by
  simp only [labelFromYm]
  split
  · split
    · exact currentLabel_ne_empty env
    · exact append_space_ne_empty _ _
  · exact currentLabel_ne_empty env

theorem openDialog_record (env : Env) (ir : Option PayrollRecord) :
    (openDialog env ir).record = ir.getD (emptyRecord env none none) := rfl

theorem step_preserves_netInvariant (env : Env) (s : State) (e : Event)
    (h : netInvariant s.record) : netInvariant (step env s e).record := by
  cases e with
  | setEmployee val => exact h
  | setMonth ym => exact h
  | setBasic val => exact rfl
  | setAllowances val => exact rfl
  | setDeductions val => exact rfl
  | setStatus st => exact h

theorem run_preserves_netInvariant (env : Env) (events : List Event) :
    ∀ s : State, netInvariant s.record → netInvariant (run env s events).record := by
  induction events with
  | nil => intro s h; exact h
  | cons e rest IH =>
    intro s h
    exact IH (step env s e) (step_preserves_netInvariant env s e h)

theorem step_preserves_month_ne (env : Env) (s : State) (e : Event)
    (h : s.record.month ≠ "") : (step env s e).record.month ≠ "" := by
  cases e with
  | setEmployee val => exact h
  | setMonth ym => exact labelFromYm_ne_empty env ym
  | setBasic val => exact h
  | setAllowances val => exact h
  | setDeductions val => exact h
  | setStatus st => exact h

theorem run_preserves_month_ne (env : Env) (events : List Event) :
    ∀ s : State, s.record.month ≠ "" → (run env s events).record.month ≠ "" := by
  induction events with
  | nil => intro s h; exact h
  | cons e rest IH =>
    intro s h
    exact IH (step env s e) (step_preserves_month_ne env s e h)

theorem saveAttempt_eq_some {employees : List Employee}
    {initialRecord : Option PayrollRecord} {s : State} {saved : PayrollRecord}
    (h : saveAttempt employees initialRecord s = some saved) :
    saved = { s.record with id := savedId initialRecord s.record } ∧
      s.record.employeeId ≠ 0 ∧ s.monthInput ≠ "" ∧
      (employees.find? (fun e => e.id == s.record.employeeId)).isSome = true := by
  unfold saveAttempt at h
  split_ifs at h with h1 h2
  injection h with h
  push_neg at h1
  exact ⟨h.symm, h1.1, h1.2, h2⟩

theorem intToString_head (i : Int) (h : i ≠ 0) :
    ∃ c cs, (intToString i).data = c :: cs ∧ (c.isDigit = true ∨ c = '-') := by
  unfold intToString
  by_cases hneg : i < 0
  · rw [if_pos hneg]
    refine ⟨'-', (natToString i.natAbs).data, ?_, Or.inr rfl⟩
    rw [String.data_append]
    rfl
  · rw [if_neg hneg]
    have hnz : i.toNat ≠ 0 := by omega
    obtain ⟨c, cs, hcs⟩ := List.exists_cons_of_ne_nil (natDigits_ne_nil _ hnz)
    rw [natToString_eq_mk _ hnz]
    refine ⟨c, cs, hcs, Or.inl ?_⟩
    exact natDigits_all_digits _ c (by rw [hcs]; exact List.mem_cons_self c cs)

theorem saveId_ne_placeholder (eid : Int) (h : eid ≠ 0) (monthStr : String) (nowMs : Nat) :
    "payroll-" ++ intToString eid ++ "-" ++ jsReplaceFirst monthStr ' ' '-' ≠
      "payroll-new-" ++ natToString nowMs := by
  intro heq
  have hd := congrArg String.data heq
  rw [String.data_append, String.data_append, String.data_append, String.data_append,
    show ("payroll-new-" : String).data =
      "payroll-".data ++ ['n', 'e', 'w', '-'] from rfl] at hd
  rw [List.append_assoc, List.append_assoc, List.append_assoc] at hd
  have hd2 := List.append_cancel_left hd
  obtain ⟨c, cs, hcs, hc⟩ := intToString_head eid h
  rw [hcs] at hd2
  simp only [List.cons_append] at hd2
  have hcn : c = 'n' := (List.cons.injEq _ _ _ _ ▸ hd2).1
  rcases hc with hdig | hdash
  · exact isDigit_ne_of c 'n' hdig (by decide) hcn
  · rw [hdash] at hcn
    cases hcn

/-- C1 (amended): every record handed to the save callback satisfies
`netSalary = max(0, basicSalary + allowances - deductions)` provided the
record the dialog was opened on (if any) already satisfied it; the equation is
re-established by every monetary keystroke and by create-mode initialization,
but an inconsistent existing record saved without monetary keystrokes is
passed through unchanged. -/
theorem save_preserves_net_invariant (env : Env) (initialRecord : Option PayrollRecord)
    (employees : List Employee) (events : List Event) (saved : PayrollRecord)
    (hinit : ∀ r0, initialRecord = some r0 → netInvariant r0)
    (hsave : saveAttempt employees initialRecord
      (run env (openDialog env initialRecord) events) = some saved) :
    saved.netSalary = max 0 (saved.basicSalary + saved.allowances - saved.deductions) := by
  have hs : netInvariant (run env (openDialog env initialRecord) events).record := by
    apply run_preserves_netInvariant
    rw [openDialog_record]
    cases initialRecord with
    | none => simp [netInvariant, emptyRecord]
    | some r0 => exact hinit r0 rfl
  obtain ⟨hrec, -, -, -⟩ := saveAttempt_eq_some hsave
  rw [hrec]
  exact hs

/-- C1 counterexample: the dialog opened on `staleRec` (whose stored net
salary 999 violates the derived-field equation) and saved without any
keystroke hands the callback a record whose `netSalary` differs from
`max(0, basicSalary + allowances - deductions)`. -/
theorem stale_net_passthrough_counterexample :
    saveAttempt [empW] (some staleRec) (run envW (openDialog envW (some staleRec)) []) =
      some staleRec ∧
    staleRec.netSalary ≠
      max 0 (staleRec.basicSalary + staleRec.allowances - staleRec.deductions) := by
  refine ⟨by decide, ?_⟩
  simp [staleRec]

/-- Witness for C1 at a concrete consistent record. -/
theorem save_preserves_net_invariant_witness :
    (∀ r0, (some okRec = some r0) → netInvariant r0) ∧
    okRec.netSalary = max 0 (okRec.basicSalary + okRec.allowances - okRec.deductions) := by
  have hinit : ∀ r0, (some okRec = some r0) → netInvariant r0 := by
    intro r0 h
    injection h with h
    rw [← h]
    simp [netInvariant, okRec]
  exact ⟨hinit,
    save_preserves_net_invariant envW (some okRec) [empW] [] okRec hinit (by decide)⟩

/-- C2 (amended): for a well-formed `YYYY-MM` value with a four-digit year
1000–9999 and month 01–12, converting to a "Month Year" label and back yields
the same value, provided the environment's locale renders English month names
and its local time zone does not run ahead of UTC. -/
theorem month_value_roundtrip (env : Env) (y m : Nat) (hy1 : 1000 ≤ y) (hy2 : y ≤ 9999)
    (hm1 : 1 ≤ m) (hm2 : m ≤ 12) (htz : env.tzAheadMinutes ≤ 0) :
    ymFromLabel env (labelFromYm env (natToString y ++ "-" ++ pad2 m)) =
      natToString y ++ "-" ++ pad2 m := by
  rw [labelFromYm_ymString env y m (by omega) hm1 hm2,
    ymFromLabel_monthLabel env y m (by omega) hm1 hm2 htz]

/-- Witness for C2 at "2025-09" in a UTC environment. -/
theorem month_value_roundtrip_witness :
    ymFromLabel envW (labelFromYm envW (natToString 2025 ++ "-" ++ pad2 9)) =
      natToString 2025 ++ "-" ++ pad2 9 :=
  month_value_roundtrip envW 2025 9 (by decide) (by decide) (by decide) (by decide)
    (by decide)

/-- C2 counterexample: in an environment running 5:30 ahead of UTC, the
round trip of the well-formed value "2025-09" yields "2025-08", not
"2025-09", because `new Date('September 2025')` is a local-time instant whose
UTC month is August. -/
theorem month_value_roundtrip_counterexample :
    ymFromLabel envIndia (labelFromYm envIndia "2025-09") = "2025-08" ∧
    ymFromLabel envIndia (labelFromYm envIndia "2025-09") ≠ "2025-09" :=
  ⟨by decide, by decide⟩

/-- C3: a successful save implies a non-zero employee id that occurs in the
supplied employee list and a non-empty month-picker value. -/
theorem save_requires_employee_and_month (employees : List Employee)
    (initialRecord : Option PayrollRecord) (s : State) (saved : PayrollRecord)
    (h : saveAttempt employees initialRecord s = some saved) :
    s.record.employeeId ≠ 0 ∧ (∃ e ∈ employees, e.id = s.record.employeeId) ∧
      s.monthInput ≠ "" := by
  obtain ⟨-, h1, h2, h3⟩ := saveAttempt_eq_some h
  refine ⟨h1, ?_, h2⟩
  obtain ⟨e, he⟩ := Option.isSome_iff_exists.mp h3
  refine ⟨e, List.mem_of_find?_eq_some he, ?_⟩
  have hp := List.find?_some he
  simpa using hp

/-- Witness for C3 at a concrete successful save. -/
theorem save_requires_employee_and_month_witness :
    saveAttempt [empW] (some okRec) (openDialog envW (some okRec)) = some okRec ∧
    ((openDialog envW (some okRec)).record.employeeId ≠ 0 ∧
      (∃ e ∈ [empW], e.id = (openDialog envW (some okRec)).record.employeeId) ∧
      (openDialog envW (some okRec)).monthInput ≠ "") :=
  ⟨by decide,
    save_requires_employee_and_month [empW] (some okRec) (openDialog envW (some okRec))
      okRec (by decide)⟩

/-- C4: when the dialog was opened on an existing record, the saved record
carries exactly that record's identifier, for every sequence of edits. -/
theorem edit_save_preserves_id (env : Env) (r0 : PayrollRecord)
    (employees : List Employee) (events : List Event) (saved : PayrollRecord)
    (h : saveAttempt employees (some r0)
      (run env (openDialog env (some r0)) events) = some saved) :
    saved.id = r0.id := by
  obtain ⟨hrec, -, -, -⟩ := saveAttempt_eq_some h
  rw [hrec]
  rfl

/-- Witness for C4: editing the status of `okRec` and saving keeps id "p1". -/
theorem edit_save_preserves_id_witness :
    saveAttempt [empW] (some okRec)
      (run envW (openDialog envW (some okRec)) [Event.setStatus PayStatus.paid]) =
      some okRecPaid ∧ okRecPaid.id = okRec.id :=
  ⟨by decide,
    edit_save_preserves_id envW okRec [empW] [Event.setStatus PayStatus.paid] okRecPaid
      (by decide)⟩

/-- C5: in create mode the saved identifier is the deterministic function
`payroll-<employeeId>-<month with first space dashed>` of the chosen employee
id and month label, and differs from the fresh draft's generated placeholder
identifier `payroll-new-<timestamp>`. -/
theorem create_save_id_shape (env : Env) (employees : List Employee)
    (events : List Event) (saved : PayrollRecord)
    (h : saveAttempt employees none (run env (openDialog env none) events) = some saved) :
    saved.id = "payroll-" ++ intToString saved.employeeId ++ "-" ++
        jsReplaceFirst saved.month ' ' '-' ∧
      saved.id ≠ (openDialog env none).record.id := by
  obtain ⟨hrec, h1, -, -⟩ := saveAttempt_eq_some h
  subst hrec
  refine ⟨rfl, ?_⟩
  show "payroll-" ++
      intToString (run env (openDialog env none) events).record.employeeId ++ "-" ++
      jsReplaceFirst (run env (openDialog env none) events).record.month ' ' '-' ≠
    "payroll-new-" ++ natToString env.nowMs
  exact saveId_ne_placeholder _ h1 _ _

/-- Witness for C5: choosing employee 1 in March 2025 saves with identifier
"payroll-1-March-2025", distinct from the placeholder "payroll-new-12345". -/
theorem create_save_id_shape_witness :
    saveAttempt [empW] none (run envW (openDialog envW none) [Event.setEmployee "1"]) =
      some savedCreate ∧
    (savedCreate.id = "payroll-" ++ intToString savedCreate.employeeId ++ "-" ++
        jsReplaceFirst savedCreate.month ' ' '-' ∧
      savedCreate.id ≠ (openDialog envW none).record.id) :=
  ⟨by decide,
    create_save_id_shape envW [empW] [Event.setEmployee "1"] savedCreate (by decide)⟩

/-- C6 (amended): on an unparseable month label the reverse conversion
returns the empty string rather than throwing, and a dialog initialized from
a record with an unparseable label sets the month picker to the current
date's `YYYY-MM` value (not to the empty value). -/
theorem unparseable_label_fallback (env : Env) (label : String) (rec : PayrollRecord)
    (prev : State) (hl : jsParseMonthYear label = none)
    (hr : jsParseMonthYear rec.month = none) :
    ymFromLabel env label = "" ∧
      (applyInitEffect env (some rec) prev).monthInput = isoYmNow env := by
  have hE : ∀ lab, jsParseMonthYear lab = none → ymFromLabel env lab = "" := by
    intro lab hh
    unfold ymFromLabel
    rw [hh]
  refine ⟨hE label hl, ?_⟩
  show (if ymFromLabel env rec.month = "" then isoYmNow env
    else ymFromLabel env rec.month) = isoYmNow env
  rw [hE rec.month hr, if_pos rfl]

/-- Witness for C6 at concrete unparseable labels. -/
theorem unparseable_label_fallback_witness :
    jsParseMonthYear "garbage" = none ∧ jsParseMonthYear recBadMonth.month = none ∧
    (ymFromLabel envW "garbage" = "" ∧
      (applyInitEffect envW (some recBadMonth) mountBad).monthInput = isoYmNow envW) :=
  ⟨by decide, by decide,
    unparseable_label_fallback envW "garbage" recBadMonth mountBad (by decide) (by decide)⟩

/-- C6 counterexample: opened on a record whose month label is unparseable,
the month picker is set to the current month "2025-03", not left empty. -/
theorem unparseable_label_counterexample :
    ymFromLabel envW recBadMonth.month = "" ∧
    (openDialog envW (some recBadMonth)).monthInput = "2025-03" ∧
    (openDialog envW (some recBadMonth)).monthInput ≠ "" :=
  ⟨by decide, by decide, by decide⟩

/-- C7: an empty or non-numeric string in any of the three monetary inputs
sets the corresponding draft field to zero; the handlers are total functions
and never fail. -/
theorem nonnumeric_input_zero (env : Env) (s : State) (val : String)
    (h : val = "" ∨ jsParseFloat val = none) :
    (step env s (Event.setBasic val)).record.basicSalary = 0 ∧
      (step env s (Event.setAllowances val)).record.allowances = 0 ∧
      (step env s (Event.setDeductions val)).record.deductions = 0 := by
  have hz : parsedMoney val = 0 := by
    unfold parsedMoney
    rcases h with h | h
    · rw [if_pos h]
    · split_ifs with h0
      · rfl
      · rw [h]
        rfl
  exact ⟨hz, hz, hz⟩

/-- Witness for C7 at the non-numeric input "abc". -/
theorem nonnumeric_input_zero_witness :
    ("abc" = "" ∨ jsParseFloat "abc" = none) ∧
    ((step envW (openDialog envW none) (Event.setBasic "abc")).record.basicSalary = 0 ∧
      (step envW (openDialog envW none) (Event.setAllowances "abc")).record.allowances = 0 ∧
      (step envW (openDialog envW none) (Event.setDeductions "abc")).record.deductions = 0) :=
  ⟨Or.inr (by decide),
    nonnumeric_input_zero envW (openDialog envW none) "abc" (Or.inr (by decide))⟩

/-- C8 (amended): the initialization effect overwrites every draft field —
its result is independent of the previous draft state, and the draft record
is replaced by the supplied record; only the month-picker value may
additionally depend on the current date, through its fallback when the
supplied record's label is unparseable. -/
theorem init_effect_overwrites_all (env : Env) (rec : PayrollRecord)
    (prev prev' : State) :
    applyInitEffect env (some rec) prev = applyInitEffect env (some rec) prev' ∧
      (applyInitEffect env (some rec) prev).record = rec :=
  ⟨rfl, rfl⟩

/-- C8 counterexample: for the same supplied record (with an unparseable
month label) and the same previous draft, two environments that differ only
in the current date produce different month-picker values, so not every
field is derived solely from the supplied record. -/
theorem init_effect_env_dependence :
    (applyInitEffect envW (some recBadMonth) mountBad).monthInput ≠
      (applyInitEffect envUtcDec (some recBadMonth) mountBad).monthInput := by
  decide

/-- C9: the saved record equals the draft record with only the identifier
replaced; every other field is passed through exactly, nothing recomputed. -/
theorem save_frame_only_id (employees : List Employee)
    (initialRecord : Option PayrollRecord) (s : State) (saved : PayrollRecord)
    (h : saveAttempt employees initialRecord s = some saved) :
    saved.employeeId = s.record.employeeId ∧ saved.month = s.record.month ∧
      saved.basicSalary = s.record.basicSalary ∧
      saved.allowances = s.record.allowances ∧
      saved.deductions = s.record.deductions ∧
      saved.netSalary = s.record.netSalary ∧ saved.status = s.record.status := by
  obtain ⟨hrec, -, -, -⟩ := saveAttempt_eq_some h
  rw [hrec]
  exact ⟨rfl, rfl, rfl, rfl, rfl, rfl, rfl⟩

/-- Witness for C9 at a concrete save: the stale net salary 999 is passed
through unrecomputed. -/
theorem save_frame_only_id_witness :
    saveAttempt [empW] (some staleRec) (openDialog envW (some staleRec)) =
      some staleRec ∧
    (staleRec.employeeId = (openDialog envW (some staleRec)).record.employeeId ∧
      staleRec.month = (openDialog envW (some staleRec)).record.month ∧
      staleRec.basicSalary = (openDialog envW (some staleRec)).record.basicSalary ∧
      staleRec.allowances = (openDialog envW (some staleRec)).record.allowances ∧
      staleRec.deductions = (openDialog envW (some staleRec)).record.deductions ∧
      staleRec.netSalary = (openDialog envW (some staleRec)).record.netSalary ∧
      staleRec.status = (openDialog envW (some staleRec)).record.status) :=
  ⟨by decide,
    save_frame_only_id [empW] (some staleRec) (openDialog envW (some staleRec)) staleRec
      (by decide)⟩

/-- C10 (amended): in every reachable draft state the record's month label is
non-empty, provided any record supplied for editing has a non-empty label;
create-mode initialization uses the current date's label and every
month-picker change — including clearing the picker — stores the non-empty
result of `labelFromYm`. -/
theorem month_label_nonempty_invariant (env : Env)
    (initialRecord : Option PayrollRecord) (events : List Event)
    (hinit : ∀ r0, initialRecord = some r0 → r0.month ≠ "") :
    (run env (openDialog env initialRecord) events).record.month ≠ "" := by
  apply run_preserves_month_ne
  rw [openDialog_record]
  cases initialRecord with
  | none => exact currentLabel_ne_empty env
  | some r0 => exact hinit r0 rfl

/-- Witness for C10: clearing the month picker still leaves a non-empty
month label on the draft. -/
theorem month_label_nonempty_invariant_witness :
    (∀ r0, (none : Option PayrollRecord) = some r0 → r0.month ≠ "") ∧
      (run envW (openDialog envW none) [Event.setMonth ""]).record.month ≠ "" :=
  ⟨fun _ hh => Option.noConfusion hh,
    month_label_nonempty_invariant envW none [Event.setMonth ""]
      (fun _ hh => Option.noConfusion hh)⟩

/-- C10 counterexample: a record supplied with an empty month label reaches a
draft state whose month field is empty. -/
theorem month_label_empty_counterexample :
    (run envW (openDialog envW (some recEmptyMonth)) []).record.month = "" := by
  decide

end Payroll
